import Mathlib

/-!
Verification development for the go-filecache repository (package filecache).

The Go source is shallowly embedded: uint64 counters and caps become Nat,
int64 durations and times (time.Duration, time.Time in nanoseconds) become
Int, the 32-byte digest type Hash becomes an opaque Nat, Go maps are
projected onto the single digest under discussion, and mutex-protected
critical sections become single atomic transitions of explicit state
machines.  Fallible file-system operations are driven by explicit outcome
parameters.  Every definition is translated from the corresponding place in
the source, cited by file and line.
-/

namespace Filecache

/-! ## Garbage-collector cap predicates (cache.go, Cache.Serve) -/

/-- Wait-loop condition of the collector (cache.go line 238):
`for c.numFiles <= c.maxFiles && c.totalSize <= c.maxSize { c.cond.Wait() }`.
All four quantities are uint64 in Go (`numFiles`, `maxFiles : uint64`,
`totalSize`, `maxSize : infounit.ByteCount = uint64`), modelled as Nat; the
comparisons cannot overflow. -/
def gcWaitCond (numFiles maxFiles totalSize maxSize : Nat) : Bool :=
  decide (numFiles ≤ maxFiles) && decide (totalSize ≤ maxSize)

/-- Wake condition of the collector: the wait loop of cache.go line 238 exits
(ignoring context cancellation) exactly when gcWaitCond is false. -/
def gcWake (numFiles maxFiles totalSize maxSize : Nat) : Bool :=
  !(gcWaitCond numFiles maxFiles totalSize maxSize)

/-- Per-candidate overflow re-check (cache.go line 309):
`overflow := c.maxFiles < c.numFiles || c.maxSize < c.totalSize`. -/
def gcOverflow (numFiles maxFiles totalSize maxSize : Nat) : Bool :=
  decide (maxFiles < numFiles) || decide (maxSize < totalSize)

/-! ## Age-expiry predicate and the initial scan (cache.go, NewWithConfig) -/

/-- Expiry test used by the initial scan (cache.go line 165) and by the GC
walker (line 277): a file is expired iff `c.maxAge < age` where
`age := time.Since(finfo.ModTime())`.  Durations are int64 nanoseconds,
modelled as Int (negative ages are possible for future mtimes). -/
def ageExpired (maxAge age : Int) : Bool := decide (maxAge < age)

/-- Observable outcome of one invocation of the initial-scan walker
(cache.go lines 141-180) on a single directory entry. -/
inductive ScanOutcome where
  /-- the walker returned fs.SkipDir (err argument non-nil, line 143-145). -/
  | skipDir : ScanOutcome
  /-- the walker returned nil without touching the counters. -/
  | ignored : ScanOutcome
  /-- the walker removed the file as expired (numRemoved++, sizeRemoved += sz). -/
  | removedExpired : ScanOutcome
  /-- the walker counted the file (numFiles++, totalSize += sz). -/
  | counted : ScanOutcome
  /-- the Go code called Size() on a nil FileInfo: a runtime panic. -/
  | nilDeref : ScanOutcome
deriving DecidableEq, Repr

/-- Directory entry as seen by the initial-scan walker.  The field info is
the result of d.Info(): some (mtime, size) on success, none when Info
returns a nil FileInfo together with a non-nil error. -/
structure DirEnt where
  /-- the err argument passed by filepath.WalkDir is non-nil. -/
  errArg : Bool
  /-- d.IsDir() -/
  isDir : Bool
  /-- the name has length HashSize*2 and hex.DecodeString succeeds
  (cache.go lines 150-157). -/
  validHexName : Bool
  /-- result of d.Info(): mtime (ns) and size, or none on stat failure. -/
  info : Option (Int × Nat)
  /-- os.Remove on this path succeeds. -/
  removeOk : Bool
deriving DecidableEq, Repr

/-- One invocation of the initial-scan walker (cache.go lines 141-180),
with now the current time in nanoseconds.  The Go code reads
`finfo, err := d.Info()` and computes `sz := infounit.ByteCount(finfo.Size())`
on line 159 BEFORE testing err on line 160; when Info fails it returns a nil
FileInfo, so that Size() call dereferences nil and panics, which the
nilDeref outcome records. -/
def scanVisit (maxAge now : Int) (e : DirEnt) : ScanOutcome :=
  if e.errArg then .skipDir
  else if e.isDir then .ignored
  else if !e.validHexName then .ignored
  else
    match e.info with
    | none => .nilDeref
    | some (mtime, _) =>
      if ageExpired maxAge (now - mtime) then
        if e.removeOk then .removedExpired else .ignored
      else .counted

/-! ## Constructor validation (cache.go, NewWithConfig lines 88-133) -/

/-- Projection of Config relevant to the validation switch. -/
structure ConfigV where
  /-- conf.Dir == "" -/
  dirEmpty : Bool
  /-- conf.Create == nil -/
  createNil : Bool
  /-- conf.MaxAge, int64 nanoseconds. -/
  maxAge : Int
  /-- conf.GCInterval, int64 nanoseconds. -/
  gcInterval : Int
deriving DecidableEq, Repr

/-- Outcome of the validation switch at the head of NewWithConfig
(cache.go lines 89-98). -/
inductive NewCheck where
  | errEmptyDir : NewCheck
  | errNilCreate : NewCheck
  | errNegativeMaxAge : NewCheck
  | errNegativeGCInterval : NewCheck
  | ok : NewCheck
deriving DecidableEq, Repr

/-- Validation switch of NewWithConfig (cache.go lines 89-98), evaluated in
source order.  An empty Dir yields ErrInvalidConfig immediately. -/
def newWithConfigCheck (c : ConfigV) : NewCheck :=
  if c.dirEmpty then .errEmptyDir
  else if c.createNil then .errNilCreate
  else if c.maxAge < 0 then .errNegativeMaxAge
  else if c.gcInterval < 0 then .errNegativeGCInterval
  else .ok

/-- Directory fallback of NewWithConfig (cache.go lines 120-122):
`if c.dir == "" { c.dir = filepath.Base(os.Args[0]) }`.  It runs only after
the validation switch has already rejected an empty Dir. -/
def resolveDirFallback (dir argv0Base : String) : String :=
  if dir = "" then argv0Base else dir

/-! ## The Get retry loop (cache.go, Cache.Get lines 361-508) -/

/-- Outcome of the os.Stat probe of the final path (cache.go line 402). -/
inductive StatRes where
  /-- stat succeeded: the file exists, with this mtime. -/
  | found (mtime : Int) : StatRes
  /-- stat failed with fs.ErrNotExist. -/
  | notFound : StatRes
  /-- stat failed with any other error (line 403-406). -/
  | otherErr : StatRes
deriving DecidableEq, Repr

/-- Outcome of the build sequence run on a miss (cache.go lines 415-495). -/
inductive BuildRes where
  /-- the whole sequence succeeded; the new file has this size. -/
  | ok (size : Nat) : BuildRes
  /-- os.MkdirAll failed (line 415). -/
  | mkdirFail : BuildRes
  /-- os.OpenFile of the temp path failed (line 429). -/
  | openFail : BuildRes
  /-- the user CreateFunc returned an error (line 442). -/
  | createFail : BuildRes
  /-- os.Stat of the temp path failed (line 458). -/
  | statTmpFail : BuildRes
  /-- os.Rename temp to final failed (line 473). -/
  | renameFail : BuildRes
deriving DecidableEq, Repr

/-- What one iteration of the Get loop observes in opMap under the lock
(cache.go line 377), together with the environment responses consumed when
no op is registered. -/
inductive GetObs where
  /-- opMap holds a BUILDING op (opType 0); err records whether its error
  slot is non-nil once the op completes (line 385). -/
  | building (err : Bool) : GetObs
  /-- opMap holds a REMOVING op (opType 1). -/
  | removing : GetObs
  /-- no op registered; the stat result and, on a miss, the build outcome. -/
  | vacant (st : StatRes) (build : BuildRes) : GetObs
deriving DecidableEq, Repr

/-- Result of the Get loop (cache.go lines 372-508); created records the Go
variable of the same name, so the returned from-cache flag is its negation. -/
inductive GetRes where
  /-- the loop broke out normally; created is the Go created flag. -/
  | success (created : Bool) : GetRes
  /-- a waited-on BUILDING op completed with an error (line 386). -/
  | errOpBuild : GetRes
  /-- fmt.Errorf ErrInternal removal twice (line 394). -/
  | errInternalRemovalTwice : GetRes
  /-- stat failed with a non-NotExist error (line 406). -/
  | errStatOther : GetRes
  /-- the build sequence failed in the recorded way. -/
  | errBuild (r : BuildRes) : GetRes
  /-- the observation list was exhausted (modelling artifact: the loop would
  have kept iterating). -/
  | exhausted : GetRes
deriving DecidableEq, Repr

/-- The Get retry loop (cache.go lines 372-508).  isRetry is the loop
variable `for isRetry := false; ; isRetry = true`; every branch but the
REMOVING one ends in break, so a second iteration happens only after a
REMOVING observation, and a REMOVING observation with isRetry already true
returns ErrInternal (lines 390-398). -/
def getLoop : Bool → List GetObs → GetRes
  | _, [] => .exhausted
  | isRetry, o :: rest =>
    match o with
    | .building err => if err then .errOpBuild else .success false
    | .removing =>
      if isRetry then .errInternalRemovalTwice else getLoop true rest
    | .vacant st build =>
      match st with
      | .found _ => .success false
      | .otherErr => .errStatOther
      | .notFound =>
        match build with
        | .ok _ => .success true
        | .mkdirFail => .errBuild .mkdirFail
        | .openFail => .errBuild .openFail
        | .createFail => .errBuild .createFail
        | .statTmpFail => .errBuild .statTmpFail
        | .renameFail => .errBuild .renameFail

/-! ## Reader refcounts (cache.go ref/unref lines 50-66, file.go Close) -/

/-- Value of the refMap cell for one fixed digest: none models absence from
the Go map, some v presence with value v.  A Go map read of an absent key
yields the zero value. -/
def refRead (cell : Option Int) : Int := cell.getD 0

/-- Cache.ref (cache.go lines 50-55): `v := c.refMap[hash];
c.refMap[hash] = v + 1`, projected onto the digest's cell. -/
def refOp (cell : Option Int) : Option Int := some (refRead cell + 1)

/-- Cache.unref (cache.go lines 57-66): `v := c.refMap[hash]; if v == 1
then delete else c.refMap[hash] = v - 1`, projected onto the cell. -/
def unrefOp (cell : Option Int) : Option Int :=
  if refRead cell = 1 then none else some (refRead cell - 1)

/-- Reader-handle events touching one digest's refcount: Get calls
Cache.ref on success (cache.go line 532) and File.Close calls Cache.unref
(file.go, `f.parent.unref(f.hash)`). -/
inductive RefEv where
  | get : RefEv
  | close : RefEv
deriving DecidableEq, Repr

/-- Run a history of Get/Close events against the digest's refMap cell. -/
def runRefs : List RefEv → Option Int → Option Int
  | [], cell => cell
  | .get :: r, cell => runRefs r (refOp cell)
  | .close :: r, cell => runRefs r (unrefOp cell)

/-- Number of gets minus number of closes in a history (net opens). -/
def netOpens : List RefEv → Int
  | [] => 0
  | .get :: r => 1 + netOpens r
  | .close :: r => netOpens r - 1

/-- Guard of the GC removal routine (cache.go lines 199-202):
`if _, refed := c.refMap[hash]; refed` — the candidate is skipped iff the
digest is PRESENT in refMap, regardless of the stored value. -/
def rmCacheSkipsOnRef (cell : Option Int) : Bool := cell.isSome

/-! ## Candidate selector of the garbage collector (cache.go lines 253-305,
336-350). The GoLLRB tree is modelled by its in-order sequence: candidate.Less
compares lastMod with time.Time.Before (strict), InsertNoReplace descends
right on ties, so a new candidate lands after every element it is not Less
than, and DeleteMax removes the last element of the in-order sequence. -/

/-- Candidate file for deletion (cache.go lines 339-343). -/
structure Candidate where
  hash : Nat
  path : String
  lastMod : Int
deriving DecidableEq, Repr

/-- candidate.Less (cache.go lines 347-350):
`c.lastMod.Before(x.lastMod)`. -/
def candLess (c x : Candidate) : Bool := decide (c.lastMod < x.lastMod)

/-- llrb InsertNoReplace on the in-order sequence: the new candidate is
placed before the first element it is Less than (descending right on every
element it is not Less than). -/
def treeInsert (c : Candidate) : List Candidate → List Candidate
  | [] => [c]
  | x :: xs => if candLess c x then c :: x :: xs else x :: treeInsert c xs

/-- One walker insertion step (cache.go lines 283-291):
`tree.InsertNoReplace(cand); if maxCands < uint64(tree.Len()) {
tree.DeleteMax() }`; DeleteMax drops the last (newest) element of the
in-order sequence. -/
def selInsert (maxCands : Nat) (s : List Candidate) (c : Candidate) :
    List Candidate :=
  if maxCands < (treeInsert c s).length then (treeInsert c s).dropLast
  else treeInsert c s

/-- Candidate collection built over a whole scan: the walker's insertions
folded over the scanned candidates in scan order, starting from the empty
tree created at cache.go line 253. -/
def selectScan (maxCands : Nat) (l : List Candidate) : List Candidate :=
  l.foldl (selInsert maxCands) []

/-- Uncapped insertion of all scanned candidates: the in-order sequence the
tree would hold with no DeleteMax, i.e. the scan sorted by ascending
lastMod. -/
def treeSort (l : List Candidate) : List Candidate :=
  l.foldl (fun s c => treeInsert c s) []

/-- Sortedness by ascending lastMod (oldest first), the in-order invariant
of the llrb tree keyed by candidate.Less. -/
def SortedLM (l : List Candidate) : Prop :=
  l.Pairwise (fun a b => a.lastMod ≤ b.lastMod)

instance : DecidablePred SortedLM := fun l => by
  unfold SortedLM; infer_instance

/-- Directory entry as seen by the GC walker (cache.go lines 255-293).
Unlike the initial scan, this walker checks the Info error before using the
result (lines 273-276). -/
structure GCEnt where
  /-- the err argument passed by filepath.WalkDir is non-nil. -/
  errArg : Bool
  /-- d.IsDir() -/
  isDir : Bool
  /-- name of length HashSize*2 that hex-decodes (lines 262-269). -/
  validHexName : Bool
  /-- digest decoded from the name. -/
  hash : Nat
  /-- walk path of the entry. -/
  path : String
  /-- result of d.Info(): some (mtime, size), none on failure. -/
  info : Option (Int × Nat)
deriving DecidableEq, Repr

/-- Decision of the GC walker for one entry (cache.go lines 255-293): the
candidate it inserts into the tree, or none when the entry is skipped or
handed to the expired fast path (lines 277-282) instead. -/
def gcCandidateOf (maxAge now : Int) (e : GCEnt) : Option Candidate :=
  if e.errArg then none
  else if e.isDir then none
  else if !e.validHexName then none
  else
    match e.info with
    | none => none
    | some (mtime, _) =>
      if ageExpired maxAge (now - mtime) then none
      else some ⟨e.hash, e.path, mtime⟩

/-- Candidates inserted into the tree over one GC scan, in scan order. -/
def gcCandidates (maxAge now : Int) (es : List GCEnt) : List Candidate :=
  es.filterMap (gcCandidateOf maxAge now)

/-! ## Lock-discipline traces (cache.go, rmCache lines 197-233 and Get
lines 361-535).  Each routine is flattened into the sequence of mutex and
file-system events it performs, one trace per control-flow path; the
branch conditions are the trace parameters. -/

/-- Kind of a file-system operation appearing in a trace. -/
inductive FsOp where
  /-- os.Stat / File.Stat -/
  | statOp : FsOp
  /-- os.Chtimes (cache.go line 502) -/
  | chtimesOp : FsOp
  /-- os.Remove -/
  | removeOp : FsOp
  /-- os.MkdirAll (line 415) -/
  | mkdirOp : FsOp
  /-- os.OpenFile / os.Open -/
  | openOp : FsOp
  /-- os.Rename (line 473) -/
  | renameOp : FsOp
  /-- execution of the user CreateFunc (line 442) -/
  | builderOp : FsOp
deriving DecidableEq, Repr

/-- Event of a trace: mutex acquisition, mutex release, or a file-system
operation. -/
inductive Ev where
  | lock : Ev
  | unlock : Ev
  | fs (o : FsOp) : Ev
deriving DecidableEq, Repr

/-- Event trace of the GC's per-candidate removal routine rmCache
(cache.go lines 197-233).  Parameters: refed — the digest is present in
refMap (line 199); statOk — os.Stat succeeds (line 203); mtimeEq — the
current mtime equals the snapshot (line 207); removeOk — os.Remove
succeeds (line 214).  Note that os.Stat runs after c.mu.Lock() with no
intervening unlock, and that the stat-failed and mtime-changed paths
return without any unlock. -/
def rmCacheTrace (refed statOk mtimeEq removeOk : Bool) : List Ev :=
  Ev.lock ::
    (if refed then [Ev.unlock]
     else Ev.fs .statOp ::
       (if !statOk then []
        else if !mtimeEq then []
        else Ev.unlock :: Ev.fs .removeOp ::
          (if removeOk then [Ev.lock, Ev.unlock]
           else [Ev.lock, Ev.unlock])))

/-- Event trace of the build sequence of Get for each outcome (cache.go
lines 415-495); it starts after the unlock on line 413 and every failure
path removes the temp and final paths best-effort, re-locks to unregister
the op, and unlocks. -/
def buildTrace : BuildRes → List Ev
  | .ok _ => [.fs .mkdirOp, .fs .openOp, .fs .builderOp, .fs .statOp,
      .fs .renameOp, .lock, .unlock]
  | .mkdirFail => [.fs .mkdirOp, .fs .removeOp, .lock, .unlock]
  | .openFail => [.fs .mkdirOp, .fs .openOp, .fs .removeOp, .fs .removeOp,
      .lock, .unlock]
  | .createFail => [.fs .mkdirOp, .fs .openOp, .fs .builderOp,
      .fs .removeOp, .fs .removeOp, .lock, .unlock]
  | .statTmpFail => [.fs .mkdirOp, .fs .openOp, .fs .builderOp,
      .fs .statOp, .fs .removeOp, .fs .removeOp, .lock, .unlock]
  | .renameFail => [.fs .mkdirOp, .fs .openOp, .fs .builderOp,
      .fs .statOp, .fs .renameOp, .fs .removeOp, .fs .removeOp,
      .lock, .unlock]

/-- Control-flow path of one non-REMOVING iteration of the Get loop. -/
inductive IterPath where
  /-- a BUILDING op was observed: numHit++, unlock, wait on the channel
  (lines 379-388); err is the op's error slot. -/
  | buildingWait (err : Bool) : IterPath
  /-- no op and the file exists: stat at line 402 and chtimes at line 502
  both run under the lock taken at line 373, unlock at line 504. -/
  | hitPath : IterPath
  /-- no op and stat failed with a non-NotExist error (lines 403-406). -/
  | statOtherPath : IterPath
  /-- no op, file missing: the BUILDING op is installed and the build
  sequence runs after the unlock at line 413. -/
  | missBuild (b : BuildRes) : IterPath
deriving DecidableEq, Repr

/-- Events of one non-REMOVING iteration of the Get loop, starting at the
c.mu.Lock() of line 373. -/
def iterTrace : IterPath → List Ev
  | .buildingWait _ => [.lock, .unlock]
  | .hitPath => [.lock, .fs .statOp, .fs .chtimesOp, .unlock]
  | .statOtherPath => [.lock, .fs .statOp, .unlock]
  | .missBuild b => [.lock, .fs .statOp, .unlock] ++ buildTrace b

/-- Whether the iteration falls through to the final open of line 510. -/
def iterContinues : IterPath → Bool
  | .buildingWait err => !err
  | .hitPath => true
  | .statOtherPath => false
  | .missBuild (.ok _) => true
  | .missBuild _ => false

/-- Events of the tail of Get after the loop (lines 510-534): os.Open,
File.Stat, and c.ref which locks and unlocks (lines 50-55). -/
def getFinalTrace : List Ev := [.fs .openOp, .fs .statOp, .lock, .unlock]

/-- Control-flow path of a whole Get call.  The only branch that loops is
the REMOVING one (continue at line 398), and a second REMOVING observation
returns ErrInternal, so a call runs at most two iterations. -/
inductive GetPath where
  /-- first observation is not REMOVING. -/
  | direct (p : IterPath) : GetPath
  /-- first observation is REMOVING (unlock at line 392, wait, retry),
  second is not. -/
  | retryThen (p : IterPath) : GetPath
  /-- both observations are REMOVING: ErrInternal (line 394). -/
  | retryRemovingTwice : GetPath
deriving DecidableEq, Repr

/-- Event trace of a whole Get call (cache.go lines 361-535). -/
def getTrace : GetPath → List Ev
  | .direct p =>
      iterTrace p ++ (if iterContinues p then getFinalTrace else [])
  | .retryThen p =>
      [.lock, .unlock] ++ iterTrace p ++
        (if iterContinues p then getFinalTrace else [])
  | .retryRemovingTwice => [.lock, .unlock, .lock, .unlock]

/-- Mutex depth after running a trace, starting from depth d. -/
def lockDepthFrom (d : Int) : List Ev → Int
  | [] => d
  | .lock :: r => lockDepthFrom (d + 1) r
  | .unlock :: r => lockDepthFrom (d - 1) r
  | .fs _ :: r => lockDepthFrom d r

/-- Mutex depth after running a trace from an unlocked start.  A balanced
routine leaves depth 0. -/
def lockDepth (tr : List Ev) : Int := lockDepthFrom 0 tr

/-- File-system operations performed while the mutex is held, scanning a
trace at starting depth d. -/
def fsUnderLockFrom (d : Int) : List Ev → List FsOp
  | [] => []
  | .lock :: r => fsUnderLockFrom (d + 1) r
  | .unlock :: r => fsUnderLockFrom (d - 1) r
  | .fs o :: r =>
      if 0 < d then o :: fsUnderLockFrom d r else fsUnderLockFrom d r

/-- File-system operations performed while the mutex is held, from an
unlocked start. -/
def fsUnderLock (tr : List Ev) : List FsOp := fsUnderLockFrom 0 tr

/-! ## Singleflight state machine (cache.go, Cache.Get and Cache.Serve),
projected onto one fixed digest D.  Each mutex-protected section of the Go
code is one atomic transition; goroutines running Get for D are numbered by
Nat; the opMap entry for D carries its kind and, for a BUILDING op, the
goroutine that installed it at line 411-412. -/

/-- The opMap entry for the digest (opEntry.opType: 0 creating,
1 removing). -/
inductive OpKind where
  | buildingOp (owner : Nat) : OpKind
  | removingOp : OpKind
deriving DecidableEq, Repr

/-- Position of one Get goroutine for the digest within the loop of
cache.go lines 372-508. -/
inductive TState where
  /-- about to take the lock and inspect opMap (line 373-377); the flag is
  the loop's isRetry variable. -/
  | ready (isRetry : Bool) : TState
  /-- blocked on a BUILDING op's done channel (line 384). -/
  | waitBuild : TState
  /-- blocked on a REMOVING op's done channel (line 397). -/
  | waitRemove : TState
  /-- executing the build sequence, including the user CreateFunc
  (lines 415-495), with its BUILDING op registered. -/
  | inBuilder : TState
  /-- returned from the loop. -/
  | finished : TState
deriving DecidableEq, Repr

/-- Pointwise update of the goroutine-state map. -/
def updTh (f : Nat → TState) (t : Nat) (v : TState) : Nat → TState :=
  fun u => if u = t then v else f u

/-- Global state projected onto the digest: its opMap entry, whether its
final file exists on disk, and every goroutine's position. -/
structure Sys where
  op : Option OpKind
  fileOnDisk : Bool
  th : Nat → TState

/-- Initial state: no in-flight op, all goroutines at the top of Get with
isRetry false. -/
def Sys.init (fileOnDisk : Bool) : Sys :=
  ⟨none, fileOnDisk, fun _ => .ready false⟩

/-- Atomic transitions of the cache for one digest.  Each constructor is
one mutex-protected section of cache.go (or a channel wakeup, which
happens outside the lock). -/
inductive Step : Sys → Sys → Prop where
  /-- lines 379-384: a ready goroutine observes a BUILDING op, records a
  hit, unlocks and waits on the done channel — it does not build. -/
  | observeBuilding (s : Sys) (t : Nat) (r : Bool) (o : Nat) :
      s.th t = .ready r → s.op = some (.buildingOp o) →
      Step s ⟨s.op, s.fileOnDisk, updTh s.th t .waitBuild⟩
  /-- lines 390-397: a ready goroutine observes a REMOVING op, unlocks and
  waits on the done channel. -/
  | observeRemoving (s : Sys) (t : Nat) (r : Bool) :
      s.th t = .ready r → s.op = some .removingOp →
      Step s ⟨s.op, s.fileOnDisk, updTh s.th t .waitRemove⟩
  /-- lines 497-504: no op and the file exists — a hit; the goroutine
  leaves the loop. -/
  | hitFile (s : Sys) (t : Nat) (r : Bool) :
      s.th t = .ready r → s.op = none → s.fileOnDisk = true →
      Step s ⟨none, true, updTh s.th t .finished⟩
  /-- lines 409-413: no op and the file is missing — the goroutine installs
  a BUILDING op owned by itself and starts the build. -/
  | beginBuild (s : Sys) (t : Nat) (r : Bool) :
      s.th t = .ready r → s.op = none → s.fileOnDisk = false →
      Step s ⟨some (.buildingOp t), false, updTh s.th t .inBuilder⟩
  /-- lines 486-495: the build succeeded; the file is renamed into place,
  the op unregistered, the done channel closed. -/
  | finishBuildOk (s : Sys) (t : Nat) :
      s.th t = .inBuilder → s.op = some (.buildingOp t) →
      Step s ⟨none, true, updTh s.th t .finished⟩
  /-- failure paths of the build (lines 415-484): the op is unregistered
  with its error and the done channel closed; no file is published. -/
  | finishBuildErr (s : Sys) (t : Nat) :
      s.th t = .inBuilder → s.op = some (.buildingOp t) →
      Step s ⟨none, false, updTh s.th t .finished⟩
  /-- lines 384-388: a waiter on a BUILDING op wakes after the channel is
  closed and returns (the op's error or the fresh file). -/
  | wakeBuildWaiter (s : Sys) (t : Nat) :
      s.th t = .waitBuild →
      Step s ⟨s.op, s.fileOnDisk, updTh s.th t .finished⟩
  /-- lines 397-398: a waiter on a REMOVING op wakes and retries from the
  top with isRetry true. -/
  | wakeRemoveWaiter (s : Sys) (t : Nat) :
      s.th t = .waitRemove →
      Step s ⟨s.op, s.fileOnDisk, updTh s.th t (.ready true)⟩
  /-- lines 198-212: the GC installs a REMOVING op (possible only when no
  op is registered for the digest). -/
  | gcBeginRemove (s : Sys) :
      s.op = none →
      Step s ⟨some .removingOp, s.fileOnDisk, s.th⟩
  /-- lines 214-231: the GC unlinks the file and unregisters the op. -/
  | gcFinishRemove (s : Sys) :
      s.op = some .removingOp →
      Step s ⟨none, false, s.th⟩

/-- States reachable from an initial state by the transition relation. -/
inductive Reach : Sys → Prop where
  | init (fileOnDisk : Bool) : Reach (Sys.init fileOnDisk)
  | step (s s' : Sys) : Reach s → Step s s' → Reach s'

/-- Ownership invariant: a goroutine executes the builder only while its
own BUILDING op is registered in opMap. -/
def BuilderInv (s : Sys) : Prop :=
  ∀ t : Nat, s.th t = .inBuilder → s.op = some (.buildingOp t)

/-- Reachable state with goroutine 0 building, used to witness C3. -/
def sysW : Sys :=
  ⟨some (.buildingOp 0), false, updTh (fun _ => .ready false) 0 .inBuilder⟩

/-- State after goroutine 1 observes the BUILDING op of sysW. -/
def sysW2 : Sys := ⟨sysW.op, sysW.fileOnDisk, updTh sysW.th 1 .waitBuild⟩

end Filecache

namespace Filecache

/-! # Theorems -/

/-- C1: the spec claims `max_files = 0` (and `max_size = 0`) disable the
corresponding cap so that the GC wake condition is never satisfied on that
ground and the overflow re-check never fires; but Cache.Serve (cache.go
lines 238 and 309) has no zero special-case: with maxFiles = 0 and a single
cached file (size 100 with maxSize = 1000, so the size cap is idle), the
wait loop exits on the file-count comparison and the per-candidate re-check
reports overflow, so cap-driven eviction proceeds.  Symmetrically for
maxSize = 0 with one file of 100 bytes and maxFiles = 1000.  This
contradicts the Config documentation (config.go: "Zero value means
unlimited" for both MaxFiles and MaxSize). -/
theorem C1_zero_cap_still_triggers_gc :
    gcWake 1 0 100 1000 = true ∧ gcOverflow 1 0 100 1000 = true ∧
    gcWake 1 1000 100 0 = true ∧ gcOverflow 1 1000 100 0 = true := by
  decide

/-- C2: the spec claims `max_age = 0` disables age eviction; but the expiry
test is `c.maxAge < age` (cache.go line 165 in the initial scan, line 277
in the GC walker) with no zero special-case, so with maxAge = 0 a valid
cache file whose mtime is 5 ns in the past is treated as expired and the
initial scan removes it.  This contradicts the Config documentation
(config.go: "Zero value means unlimited" for MaxAge). -/
theorem C2_zero_max_age_still_evicts :
    ageExpired 0 5 = true ∧
    scanVisit 0 100 ⟨false, false, true, some (95, 42), true⟩ =
      .removedExpired := by
  decide

/-- C6: in the Get loop (cache.go lines 390-398), observing a REMOVING op
with isRetry false waits and retries from the top (the next iteration runs
with isRetry true); observing a REMOVING op with isRetry true returns the
ErrInternal removal-twice error; and a single REMOVING observation followed
by any non-REMOVING observation never yields that error. -/
theorem C6_removing_twice_internal_error :
    (∀ rest : List GetObs, getLoop false (.removing :: rest) = getLoop true rest) ∧
    (∀ rest : List GetObs,
      getLoop true (.removing :: rest) = .errInternalRemovalTwice) ∧
    (∀ o : GetObs, o ≠ .removing →
      getLoop false [.removing, o] ≠ .errInternalRemovalTwice) := by
  refine ⟨fun rest => rfl, fun rest => rfl, fun o ho => ?_⟩
  match o with
  | .building err => cases err <;> simp [getLoop]
  | .removing => exact absurd rfl ho
  | .vacant st build => cases st <;> cases build <;> simp [getLoop]

/-- Witness for C6: a concrete call that observes REMOVING once and then a
cache hit does not produce the internal-consistency error. -/
theorem C6_removing_twice_internal_error_witness :
    getLoop false [.removing, .vacant (.found 7) (.ok 1)] ≠
      .errInternalRemovalTwice :=
  C6_removing_twice_internal_error.2.2 (.vacant (.found 7) (.ok 1)) (by decide)

/-- C7: the spec claims entries whose Info/stat fails are skipped without
aborting the initial scan; but cache.go line 159 computes
`sz := infounit.ByteCount(finfo.Size())` BEFORE the err check on line 160,
and d.Info() returns a nil FileInfo on failure, so the walker dereferences
nil and panics instead of skipping: here a well-named, fresh entry whose
Info fails makes the scan visit panic (maxAge one day, now arbitrary). -/
theorem C7_unreadable_entry_panics :
    scanVisit 86400000000000 1000 ⟨false, false, true, none, true⟩ =
      .nilDeref ∧
    ScanOutcome.nilDeref ≠ .ignored := by
  decide

/-- C8: the spec claims an empty root directory is accepted and replaced by
the program's base name under the user cache directory; but the validation
switch of NewWithConfig (cache.go lines 89-91) rejects `conf.Dir == ""`
with ErrInvalidConfig before the fallback on lines 120-122 can run, so
construction fails for every otherwise-valid configuration with an empty
Dir (here Create non-nil, MaxAge = 0, GCInterval = 0); the fallback
`resolveDirFallback` is dead code.  This contradicts the Config
documentation (config.go Dir: "If it is empty, use the program name
directory."). -/
theorem C8_empty_dir_rejected :
    newWithConfigCheck ⟨true, false, 0, 0⟩ = .errEmptyDir ∧
    NewCheck.errEmptyDir ≠ .ok ∧
    resolveDirFallback "" "prog" = "prog" := by
  refine ⟨rfl, by decide, rfl⟩

/-! ## Candidate-selector lemmas (towards C5) -/

theorem treeInsert_ne_nil (c : Candidate) (s : List Candidate) :
    treeInsert c s ≠ [] := by
  cases s with
  | nil => simp [treeInsert]
  | cons x xs =>
    unfold treeInsert
    split <;> simp

theorem length_treeInsert (c : Candidate) (s : List Candidate) :
    (treeInsert c s).length = s.length + 1 := by
  induction s with
  | nil => rfl
  | cons x xs ih =>
    unfold treeInsert
    split <;> simp [ih]

theorem treeInsert_perm (c : Candidate) (s : List Candidate) :
    (treeInsert c s).Perm (c :: s) := by
  induction s with
  | nil => exact List.Perm.refl _
  | cons x xs ih =>
    unfold treeInsert
    split
    · exact List.Perm.refl _
    · exact (ih.cons x).trans (List.Perm.swap c x xs)

theorem mem_treeInsert {a c : Candidate} {s : List Candidate}
    (h : a ∈ treeInsert c s) : a = c ∨ a ∈ s := by
  have := (treeInsert_perm c s).mem_iff.mp h
  simpa using this

theorem sortedLM_treeInsert (c : Candidate) {s : List Candidate}
    (h : SortedLM s) : SortedLM (treeInsert c s) := by
  induction s with
  | nil => simp [treeInsert, SortedLM]
  | cons x xs ih =>
    unfold SortedLM at h ⊢
    rw [List.pairwise_cons] at h
    unfold treeInsert
    split
    · rename_i hlt
      have hcx : c.lastMod ≤ x.lastMod := by
        simp only [candLess, decide_eq_true_eq] at hlt
        omega
      refine List.Pairwise.cons ?_ (List.Pairwise.cons h.1 h.2)
      intro b hb
      rw [List.mem_cons] at hb
      rcases hb with hb | hb
      · subst hb; exact hcx
      · exact le_trans hcx (h.1 b hb)
    · rename_i hlt
      have hxc : x.lastMod ≤ c.lastMod := by
        simp only [candLess, decide_eq_true_eq] at hlt
        omega
      refine List.Pairwise.cons ?_ (ih h.2)
      intro b hb
      rcases mem_treeInsert hb with hb | hb
      · subst hb; exact hxc
      · exact h.1 b hb

theorem selInsert_take (l : List Candidate) :
    ∀ (C : Nat) (c : Candidate),
      selInsert C (l.take C) c = (treeInsert c l).take C := by
  induction l with
  | nil =>
    intro C c
    cases C with
    | zero => simp [selInsert, treeInsert]
    | succ n => simp [selInsert, treeInsert]
  | cons x xs ih =>
    intro C c
    cases C with
    | zero => simp [selInsert, treeInsert]
    | succ n =>
      by_cases h : candLess c x = true
      · have h1 : treeInsert c (x :: xs.take n) = c :: x :: xs.take n := by
          simp [treeInsert, h]
        have h2 : treeInsert c (x :: xs) = c :: x :: xs := by
          simp [treeInsert, h]
        rw [List.take_succ_cons, h2, List.take_succ_cons]
        simp only [selInsert, h1, List.length_cons, List.length_take]
        by_cases hn : n ≤ xs.length
        · have hmin : min n xs.length = n := by omega
          rw [hmin, if_pos (by omega), List.dropLast_eq_take]
          simp only [List.length_cons, List.length_take, hmin]
          have h3 : n + 1 + 1 - 1 = n + 1 := by omega
          rw [h3, List.take_succ_cons]
          congr 1
          cases n with
          | zero => rfl
          | succ m =>
            rw [List.take_succ_cons, List.take_succ_cons, List.take_take]
            have h4 : min m (m + 1) = m := by omega
            rw [h4]
        · have hmin : min n xs.length = xs.length := by omega
          rw [hmin, if_neg (by omega)]
          have hx : xs.take n = xs := List.take_of_length_le (by omega)
          have hxx : (x :: xs).take n = x :: xs :=
            List.take_of_length_le (by simp; omega)
          rw [hx, hxx]
      · have h1 : treeInsert c (x :: xs.take n) = x :: treeInsert c (xs.take n) := by
          simp [treeInsert, h]
        have h2 : treeInsert c (x :: xs) = x :: treeInsert c xs := by
          simp [treeInsert, h]
        rw [List.take_succ_cons, h2, List.take_succ_cons, ← ih n c]
        simp only [selInsert, h1, List.length_cons, length_treeInsert,
          List.length_take]
        by_cases hn : n ≤ xs.length
        · rw [if_pos (by omega), if_pos (by omega),
            List.dropLast_cons_of_ne_nil (treeInsert_ne_nil c _)]
        · rw [if_neg (by omega), if_neg (by omega)]

theorem selectScan_eq_take (C : Nat) (l : List Candidate) :
    selectScan C l = (treeSort l).take C := by
  suffices h : ∀ (l full : List Candidate),
      List.foldl (selInsert C) (full.take C) l =
        (List.foldl (fun s c => treeInsert c s) full l).take C by
    have := h l []
    simpa [selectScan, treeSort] using this
  intro l
  induction l with
  | nil => intro full; rfl
  | cons c r ih =>
    intro full
    simp only [List.foldl_cons]
    rw [selInsert_take full C c]
    exact ih (treeInsert c full)

theorem treeSort_perm (l : List Candidate) : (treeSort l).Perm l := by
  suffices h : ∀ (l acc : List Candidate),
      (List.foldl (fun s c => treeInsert c s) acc l).Perm (l ++ acc) by
    have := h l []
    simpa [treeSort] using this
  intro l
  induction l with
  | nil => intro acc; simp
  | cons c r ih =>
    intro acc
    simp only [List.foldl_cons]
    refine ((ih (treeInsert c acc)).trans ?_)
    refine (List.Perm.append_left r (treeInsert_perm c acc)).trans ?_
    exact List.perm_middle.trans (List.Perm.refl _)

theorem sortedLM_treeSort (l : List Candidate) : SortedLM (treeSort l) := by
  suffices h : ∀ (l acc : List Candidate), SortedLM acc →
      SortedLM (List.foldl (fun s c => treeInsert c s) acc l) by
    exact h l [] (by simp [SortedLM])
  intro l
  induction l with
  | nil => intro acc hacc; exact hacc
  | cons c r ih =>
    intro acc hacc
    simp only [List.foldl_cons]
    exact ih _ (sortedLM_treeInsert c hacc)

theorem sortedLM_last_le {L : List Candidate} {m : Candidate}
    (h : SortedLM (L ++ [m])) : ∀ e ∈ L, e.lastMod ≤ m.lastMod := by
  unfold SortedLM at h
  rw [List.pairwise_append] at h
  intro e he
  exact h.2.2 e he m (by simp)

theorem selInsert_drops_newest (C : Nat) (s : List Candidate) (c : Candidate)
    (hs : SortedLM s) (hover : C < (treeInsert c s).length) :
    ∃ m, treeInsert c s = selInsert C s c ++ [m] ∧
      ∀ e ∈ selInsert C s c, e.lastMod ≤ m.lastMod := by
  have hne := treeInsert_ne_nil c s
  have hsel : selInsert C s c = (treeInsert c s).dropLast := by
    unfold selInsert
    rw [if_pos hover]
  refine ⟨(treeInsert c s).getLast hne, ?_, ?_⟩
  · rw [hsel, List.dropLast_append_getLast hne]
  · intro e he
    rw [hsel] at he
    have hsorted : SortedLM ((treeInsert c s).dropLast ++
        [(treeInsert c s).getLast hne]) := by
      rw [List.dropLast_append_getLast hne]
      exact sortedLM_treeInsert c hs
    exact sortedLM_last_le hsorted e he

theorem gcCandidates_not_expired (maxAge now : Int) (es : List GCEnt) :
    ∀ e ∈ gcCandidates maxAge now es,
      ageExpired maxAge (now - e.lastMod) = false := by
  intro e he
  rw [gcCandidates, List.mem_filterMap] at he
  obtain ⟨a, _, ha⟩ := he
  unfold gcCandidateOf at ha
  split at ha
  · exact absurd ha (by simp)
  split at ha
  · exact absurd ha (by simp)
  split at ha
  · exact absurd ha (by simp)
  split at ha
  · exact absurd ha (by simp)
  rename_i mtime sz heq
  split at ha
  · exact absurd ha (by simp)
  · rename_i hexp
    rw [Option.some_inj] at ha
    subst ha
    simpa using hexp

/-- C5: during one GC cycle with capacity C, the candidate selector holds at
most C entries after every walker step; the collection after the scan is
exactly the first C entries of the scan sorted by ascending lastMod (the at
most C oldest, listed oldest first); that sorted sequence is a permutation
of the scanned non-expired candidates, every retained entry is no newer than
every non-retained one, every inserted candidate passed the non-expiry test
of cache.go line 277, and whenever an insertion overflows the capacity the
dropped entry has maximal (newest) lastMod among the tree's contents. -/
theorem C5_candidate_selector (C : Nat) (maxAge now : Int)
    (es : List GCEnt) :
    (∀ k : Nat,
      (selectScan C ((gcCandidates maxAge now es).take k)).length ≤ C) ∧
    selectScan C (gcCandidates maxAge now es) =
      (treeSort (gcCandidates maxAge now es)).take C ∧
    SortedLM (treeSort (gcCandidates maxAge now es)) ∧
    (treeSort (gcCandidates maxAge now es)).Perm
      (gcCandidates maxAge now es) ∧
    (∀ e ∈ selectScan C (gcCandidates maxAge now es),
      ∀ e2 ∈ (treeSort (gcCandidates maxAge now es)).drop C,
        e.lastMod ≤ e2.lastMod) ∧
    (∀ e ∈ gcCandidates maxAge now es,
      ageExpired maxAge (now - e.lastMod) = false) ∧
    (∀ (s : List Candidate) (c : Candidate), SortedLM s →
      C < (treeInsert c s).length →
      ∃ m, treeInsert c s = selInsert C s c ++ [m] ∧
        ∀ e ∈ selInsert C s c, e.lastMod ≤ m.lastMod) := by
  refine ⟨?_, selectScan_eq_take C _, sortedLM_treeSort _, treeSort_perm _,
    ?_, gcCandidates_not_expired maxAge now es, ?_⟩
  · intro k
    rw [selectScan_eq_take]
    exact List.length_take_le C _
  · intro e he e2 he2
    rw [selectScan_eq_take] at he
    have hsort := sortedLM_treeSort (gcCandidates maxAge now es)
    unfold SortedLM at hsort
    rw [← List.take_append_drop C (treeSort (gcCandidates maxAge now es)),
      List.pairwise_append] at hsort
    exact hsort.2.2 e he e2 he2
  · intro s c hs hover
    exact selInsert_drops_newest C s c hs hover

/-- Witness for C5: with capacity 1 and two fresh, well-named, distinct-age
entries scanned, the overflow conjunct applies to a concrete one-element
sorted tree: inserting a newer candidate overflows and drops it. -/
theorem C5_candidate_selector_witness :
    ∃ m, treeInsert ⟨2, "b", 9⟩ [⟨1, "a", 4⟩] =
      selInsert 1 [⟨1, "a", 4⟩] ⟨2, "b", 9⟩ ++ [m] ∧
      ∀ e ∈ selInsert 1 [⟨1, "a", 4⟩] ⟨2, "b", 9⟩,
        e.lastMod ≤ m.lastMod :=
  (C5_candidate_selector 1 0 100 [⟨false, false, true, 1, "a", some (96, 7)⟩,
    ⟨false, false, true, 2, "b", some (91, 7)⟩]).2.2.2.2.2.2
    [⟨1, "a", 4⟩] ⟨2, "b", 9⟩ (by simp [SortedLM]) (by decide)

/-! ## Refcount lemmas (towards C10) -/

theorem runRefs_stays (evs : List RefEv) :
    ∀ v : Int, (∀ k, k ≤ evs.length → v + netOpens (evs.take k) ≤ 0) →
      runRefs evs (some v) = some (v + netOpens evs) := by
  induction evs with
  | nil =>
    intro v _
    simp [runRefs, netOpens]
  | cons e r ih =>
    intro v h
    cases e with
    | get =>
      show runRefs r (refOp (some v)) = _
      have hstep : refOp (some v) = some (v + 1) := by
        simp [refOp, refRead]
      rw [hstep, ih (v + 1) ?_]
      · congr 1
        simp only [netOpens]
        ring
      · intro k hk
        have hh := h (k + 1) (by simp only [List.length_cons]; omega)
        simp only [List.take_succ_cons, netOpens] at hh
        omega
    | close =>
      show runRefs r (unrefOp (some v)) = _
      have hv : v ≤ 0 := by
        have hh := h 0 (by simp)
        simpa [netOpens] using hh
      have hstep : unrefOp (some v) = some (v - 1) := by
        unfold unrefOp refRead
        simp only [Option.getD_some]
        rw [if_neg (by omega)]
      rw [hstep, ih (v - 1) ?_]
      · congr 1
        simp only [netOpens]
        ring
      · intro k hk
        have hh := h (k + 1) (by simp only [List.length_cons]; omega)
        simp only [List.take_succ_cons, netOpens] at hh
        omega

/-- C10 counterexample: the claim says the -1 entry left by a double Close
is never removed by any subsequent operation and the digest is never
evicted thereafter; but after the double Close (history get, close, close
from an absent cell) two overlapping Gets followed by one Close delete the
entry — unref finds the value 1 and removes it (cache.go lines 61-62) —
and then the eviction guard no longer skips the digest. -/
theorem C10_stale_entry_removed :
    runRefs [.get, .close, .close] none = some (-1) ∧
    runRefs [.get, .close, .close, .get, .get, .close] none = none ∧
    rmCacheSkipsOnRef
      (runRefs [.get, .close, .close, .get, .get, .close] none) = false := by
  decide

/-- C10 (amended): the eviction guard of cache.go lines 199-202 skips a
digest exactly when it is present in refMap, regardless of the stored
value; a double Close while no other handle is open leaves the cell at -1;
and that entry persists — so the digest is never evicted — under every
subsequent history in which two reader handles are never simultaneously
open (net opens at most 1 at every point).  (Overlapping handles can
remove it, see the counterexample.) -/
theorem C10_pinned_after_double_close :
    (∀ v : Int, rmCacheSkipsOnRef (some v) = true) ∧
    rmCacheSkipsOnRef none = false ∧
    runRefs [.get, .close, .close] none = some (-1) ∧
    (∀ evs : List RefEv,
      (∀ k, k ≤ evs.length → netOpens (evs.take k) ≤ 1) →
      runRefs evs (some (-1)) = some (-1 + netOpens evs) ∧
      rmCacheSkipsOnRef (runRefs evs (some (-1))) = true) := by
  refine ⟨fun v => rfl, rfl, by decide, ?_⟩
  intro evs h
  have hrun := runRefs_stays evs (-1) ?_
  · exact ⟨hrun, by rw [hrun]; rfl⟩
  · intro k hk
    have := h k hk
    omega

/-- Witness for C10 (amended): one further non-overlapping Get/Close pair
keeps the stale entry present and the digest pinned. -/
theorem C10_pinned_after_double_close_witness :
    runRefs [.get, .close] (some (-1)) =
      some (-1 + netOpens [.get, .close]) ∧
    rmCacheSkipsOnRef (runRefs [.get, .close] (some (-1))) = true :=
  C10_pinned_after_double_close.2.2.2 [.get, .close]
    (by
      intro k hk
      simp only [List.length_cons, List.length_nil] at hk
      interval_cases k <;> decide)

/-- C4 counterexample: the claim says the registry mutex is never held
during any file-system I/O; but the GC's per-candidate removal routine
performs os.Stat (cache.go line 203) between Lock (198) and Unlock (212),
and Get performs the existence stat (line 402) and the mtime refresh
chtimes (line 502) under the lock taken at line 373. -/
theorem C4_stat_under_mutex :
    fsUnderLock (rmCacheTrace false true true true) = [.statOp] ∧
    fsUnderLock (rmCacheTrace false true true true) ≠ [] ∧
    fsUnderLock (getTrace (.direct .hitPath)) = [.statOp, .chtimesOp] := by
  decide

/-- C4 (amended): on every control-flow path of Get and of the GC's
per-candidate removal routine, the only file-system operations performed
while the registry mutex is held are stat (Get's existence probe and
rmCache's re-check) and chtimes (Get's hit-path mtime refresh); open,
create, the user builder, rename, unlink and mkdir always run with the
mutex released. -/
theorem C4_mutex_io_discipline :
    (∀ p : GetPath, ∀ o ∈ fsUnderLock (getTrace p),
      o = .statOp ∨ o = .chtimesOp) ∧
    (∀ a b c d : Bool, ∀ o ∈ fsUnderLock (rmCacheTrace a b c d),
      o = .statOp) := by
  constructor
  · intro p
    match p with
    | .direct (.buildingWait e) => cases e <;> decide
    | .direct .hitPath => decide
    | .direct .statOtherPath => decide
    | .direct (.missBuild (.ok size)) =>
      exact (show ∀ o ∈ fsUnderLock (getTrace (.direct (.missBuild (.ok 0)))),
        o = .statOp ∨ o = .chtimesOp by decide)
    | .direct (.missBuild .mkdirFail) => decide
    | .direct (.missBuild .openFail) => decide
    | .direct (.missBuild .createFail) => decide
    | .direct (.missBuild .statTmpFail) => decide
    | .direct (.missBuild .renameFail) => decide
    | .retryThen (.buildingWait e) => cases e <;> decide
    | .retryThen .hitPath => decide
    | .retryThen .statOtherPath => decide
    | .retryThen (.missBuild (.ok size)) =>
      exact (show ∀ o ∈ fsUnderLock (getTrace (.retryThen (.missBuild (.ok 0)))),
        o = .statOp ∨ o = .chtimesOp by decide)
    | .retryThen (.missBuild .mkdirFail) => decide
    | .retryThen (.missBuild .openFail) => decide
    | .retryThen (.missBuild .createFail) => decide
    | .retryThen (.missBuild .statTmpFail) => decide
    | .retryThen (.missBuild .renameFail) => decide
    | .retryRemovingTwice => decide
  · intro a b c d
    cases a <;> cases b <;> cases c <;> cases d <;> decide

/-- Witness for C4 (amended): the stat performed under the lock on Get's
hit path is one of the two permitted under-lock operations. -/
theorem C4_mutex_io_discipline_witness :
    FsOp.statOp = .statOp ∨ FsOp.statOp = .chtimesOp :=
  C4_mutex_io_discipline.1 (.direct .hitPath) .statOp (by decide)

/-- C9: the claim — matching the clear intent of the skip comments on
cache.go lines 205 and 208 and of the spec — is that every path of rmCache
releases the mutex before returning; but the path where os.Stat fails
(line 204, file disappeared) and the path where the mtime differs from the
snapshot (line 207, concurrently accessed) both return nil while still
holding the mutex acquired on line 198, leaving depth 1; the other paths
are balanced. -/
theorem C9_rmCache_leaks_mutex :
    lockDepth (rmCacheTrace false false true true) = 1 ∧
    lockDepth (rmCacheTrace false true false true) = 1 ∧
    lockDepth (rmCacheTrace true true true true) = 0 ∧
    lockDepth (rmCacheTrace false true true true) = 0 ∧
    lockDepth (rmCacheTrace false true true false) = 0 := by
  decide

/-! ## Singleflight lemmas (towards C3) -/

theorem builderInv_init (f : Bool) : BuilderInv (Sys.init f) := by
  intro t h
  exact absurd h (by simp [Sys.init])

theorem builderInv_step {s s' : Sys} (hs : BuilderInv s)
    (hstep : Step s s') : BuilderInv s' := by
  cases hstep with
  | observeBuilding t r o hth hop =>
    intro u hu
    dsimp only [updTh] at hu ⊢
    by_cases he : u = t
    · rw [if_pos he] at hu
      exact absurd hu (by decide)
    · rw [if_neg he] at hu
      exact hs u hu
  | observeRemoving t r hth hop =>
    intro u hu
    dsimp only [updTh] at hu ⊢
    by_cases he : u = t
    · rw [if_pos he] at hu
      exact absurd hu (by decide)
    · rw [if_neg he] at hu
      exact hs u hu
  | hitFile t r hth hop hf =>
    intro u hu
    dsimp only [updTh] at hu ⊢
    by_cases he : u = t
    · rw [if_pos he] at hu
      exact absurd hu (by decide)
    · rw [if_neg he] at hu
      have h1 := hs u hu
      rw [hop] at h1
      exact Option.noConfusion h1
  | beginBuild t r hth hop hf =>
    intro u hu
    dsimp only [updTh] at hu ⊢
    by_cases he : u = t
    · subst he
      rfl
    · rw [if_neg he] at hu
      have h1 := hs u hu
      rw [hop] at h1
      exact Option.noConfusion h1
  | finishBuildOk t hth hop =>
    intro u hu
    dsimp only [updTh] at hu ⊢
    by_cases he : u = t
    · rw [if_pos he] at hu
      exact absurd hu (by decide)
    · rw [if_neg he] at hu
      have h1 := hs u hu
      rw [hop] at h1
      simp only [Option.some.injEq, OpKind.buildingOp.injEq] at h1
      exact absurd h1.symm he
  | finishBuildErr t hth hop =>
    intro u hu
    dsimp only [updTh] at hu ⊢
    by_cases he : u = t
    · rw [if_pos he] at hu
      exact absurd hu (by decide)
    · rw [if_neg he] at hu
      have h1 := hs u hu
      rw [hop] at h1
      simp only [Option.some.injEq, OpKind.buildingOp.injEq] at h1
      exact absurd h1.symm he
  | wakeBuildWaiter t hth =>
    intro u hu
    dsimp only [updTh] at hu ⊢
    by_cases he : u = t
    · rw [if_pos he] at hu
      exact absurd hu (by decide)
    · rw [if_neg he] at hu
      exact hs u hu
  | wakeRemoveWaiter t hth =>
    intro u hu
    dsimp only [updTh] at hu ⊢
    by_cases he : u = t
    · rw [if_pos he] at hu
      exact absurd hu (by decide)
    · rw [if_neg he] at hu
      exact hs u hu
  | gcBeginRemove hop =>
    intro u hu
    have h1 := hs u hu
    rw [hop] at h1
    exact Option.noConfusion h1
  | gcFinishRemove hop =>
    intro u hu
    have h1 := hs u hu
    rw [hop] at h1
    simp at h1

theorem builderInv_reach {s : Sys} (h : Reach s) : BuilderInv s := by
  induction h with
  | init f => exact builderInv_init f
  | step s s' hr hstep ih => exact builderInv_step ih hstep

/-- C3: in every reachable state of the per-digest protocol, at most one
goroutine is executing the user CreateFunc for the digest (mutual
exclusion of builders); moreover, whenever any transition fires while a
goroutine at the top of the loop observes a registered BUILDING op, that
goroutine either moves to waiting on the op's completion or is left
untouched — in particular it never enters the builder. -/
theorem C3_singleflight :
    (∀ s : Sys, Reach s → ∀ t u : Nat,
      s.th t = .inBuilder → s.th u = .inBuilder → t = u) ∧
    (∀ (s s' : Sys) (t : Nat) (r : Bool) (o : Nat),
      s.th t = .ready r → s.op = some (.buildingOp o) → Step s s' →
      s'.th t = .waitBuild ∨ s'.th t = s.th t) := by
  constructor
  · intro s hr t u ht hu
    have hinv := builderInv_reach hr
    have h1 := hinv t ht
    have h2 := hinv u hu
    rw [h1] at h2
    simp only [Option.some.injEq, OpKind.buildingOp.injEq] at h2
    exact h2
  · intro s s' t r o hth hop hstep
    cases hstep with
    | observeBuilding t' r' o' hth' hop' =>
      by_cases he : t = t'
      · left
        subst he
        simp [updTh]
      · right
        simp [updTh, he]
    | observeRemoving t' r' hth' hop' =>
      rw [hop] at hop'
      simp at hop'
    | hitFile t' r' hth' hop' hf =>
      rw [hop] at hop'
      exact Option.noConfusion hop'
    | beginBuild t' r' hth' hop' hf =>
      rw [hop] at hop'
      exact Option.noConfusion hop'
    | finishBuildOk t' hth' hop' =>
      right
      have he : ¬ t = t' := by
        intro h
        rw [h, hth'] at hth
        exact TState.noConfusion hth
      simp [updTh, he]
    | finishBuildErr t' hth' hop' =>
      right
      have he : ¬ t = t' := by
        intro h
        rw [h, hth'] at hth
        exact TState.noConfusion hth
      simp [updTh, he]
    | wakeBuildWaiter t' hth' =>
      right
      have he : ¬ t = t' := by
        intro h
        rw [h, hth'] at hth
        exact TState.noConfusion hth
      simp [updTh, he]
    | wakeRemoveWaiter t' hth' =>
      right
      have he : ¬ t = t' := by
        intro h
        rw [h, hth'] at hth
        exact TState.noConfusion hth
      simp [updTh, he]
    | gcBeginRemove hop' =>
      right
      rfl
    | gcFinishRemove hop' =>
      right
      rfl

/-- Witness for C3: in the reachable state sysW, goroutine 0 is the unique
builder, and a transition in which goroutine 1 observes the registered
BUILDING op sends goroutine 1 to waiting, not into the builder. -/
theorem C3_singleflight_witness :
    (0 : Nat) = 0 ∧
    (sysW2.th 1 = .waitBuild ∨ sysW2.th 1 = sysW.th 1) :=
  ⟨C3_singleflight.1 sysW
    (Reach.step _ _ (Reach.init false)
      (Step.beginBuild (Sys.init false) 0 false rfl rfl rfl))
    0 0 rfl rfl,
  C3_singleflight.2 sysW sysW2 1 false 0 rfl rfl
    (Step.observeBuilding sysW 1 false 0 rfl rfl)⟩

end Filecache
